import Mathlib

/-!
# Verification of the pydidas multiprocess execution core

This file gives a shallow embedding, in Lean 4, of the multiprocess
execution core of pydidas:

* `pydidas/multiprocessing/app_processor_.py` — the per-worker loop
  `app_processor`, embedded as a step function `step` on an explicit
  worker state `ProcState` together with a fuel-indexed driver `run`;
* `pydidas/multiprocess/app_runner.py` — the `AppRunner` controller
  methods `call_app_method`, `set_app_param`, `__check_is_running`,
  `__check_progress` and `__get_app_arguments`;
* the shared-result-buffer behaviour of `ExecuteWorkflowApp`
  (`multiprocessing_func` / `multiprocessing_store_results`), whose
  source module is not part of the snapshot and is therefore modelled
  from the specification and its unit tests.

Python queues become Lean lists (head = next element to be fetched,
pushes append at the tail); the opaque Application is modelled by an
oracle for `multiprocessing_carryon()` (a function from the number of
calls made so far to the returned Bool) and a pure payload function
`f : Nat -> Nat` for `multiprocessing_func`.  Calls to the sleeping
primitive and to the Application hooks are recorded in ghost fields
(`sleeps`, `preCycles`, `funcCalls`) so that temporal claims about them
can be stated.
-/

/-- State of one worker executing the `app_processor` main loop
(`app_processor_.py`, lines 82-115).

* `inputQueue`  — the task queue; `none` is the `None` sentinel.
* `outputQueue` — result envelopes `[arg, results]` in push order; the
  envelope `(none, none)` is the end marker.
* `stopQueue` / `abortedQueue` — the termination-signal queues.
* `carryon`    — the Python local `_app_carryon` (initially `True`).
* `heldArg`    — the Python local `_arg`; `none` while `_arg` is still
  undefined (before the first successful fetch).
* `oracle`, `ncalls` — the Application's `multiprocessing_carryon()`:
  call number `n` returns `oracle n`; `ncalls` counts calls made.
* `sleeps`     — ghost counter of `time.sleep(0.005)` calls.
* `preCycles`  — ghost list of arguments passed to
  `multiprocessing_pre_cycle`, i.e. tasks fetched from the input queue.
* `funcCalls`  — ghost list of arguments passed to
  `multiprocessing_func`. -/
structure ProcState where
  inputQueue : List (Option Nat)
  outputQueue : List (Option Nat × Option Nat)
  stopQueue : List Nat
  abortedQueue : List Nat
  carryon : Bool
  heldArg : Option Nat
  oracle : Nat → Bool
  ncalls : Nat
  sleeps : Nat
  preCycles : List Nat
  funcCalls : List Nat

/-- Outcome of one iteration of the `while True` loop:
`next` — the loop continues (a `continue` statement or falling through
to the next iteration); `stopExit` — `break` after a stop-queue token
(line 94); `doneExit` — `break` after the `None` sentinel (line 107);
`crash` — `multiprocessing_func(_arg)` reached with `_arg` still
undefined, a Python `NameError` (unreachable from a start state, where
`_app_carryon` is `True`). -/
inductive StepResult where
  | next (s : ProcState)
  | stopExit (s : ProcState)
  | doneExit (s : ProcState)
  | crash (s : ProcState)


/-- The state carried by a `StepResult`. -/
def StepResult.state : StepResult → ProcState
  | .next s => s
  | .stopExit s => s
  | .doneExit s => s
  | .crash s => s

/-- The tail of one loop iteration, from line 110 on: call
`multiprocessing_carryon()`, and if it returned `True` compute
`multiprocessing_func(_arg)` and push `[_arg, _results]` onto the
output queue. -/
def stepTail (f : Nat → Nat) (s : ProcState) : StepResult :=
  let c := s.oracle s.ncalls
  let s1 : ProcState := { s with ncalls := s.ncalls + 1, carryon := c }
  if c then
    match s1.heldArg with
    | some a =>
        .next { s1 with
                  outputQueue := s1.outputQueue ++ [(some a, some (f a))],
                  funcCalls := s1.funcCalls ++ [a] }
    | none => .crash s1
  else
    .next s1

/-- One iteration of the `app_processor` main loop (lines 88-115):
poll the stop queue first; then, when `_app_carryon` holds, fetch from
the input queue (sleeping 5 ms and restarting the loop when it is
empty, breaking with a `(None, None)` end marker on the sentinel, and
recording `multiprocessing_pre_cycle(_arg)` otherwise); finally run
`stepTail`. -/
def step (f : Nat → Nat) (s : ProcState) : StepResult :=
  match s.stopQueue with
  | _ :: rest =>
      .stopExit { s with
                    stopQueue := rest,
                    abortedQueue := s.abortedQueue ++ [1] }
  | [] =>
      if s.carryon then
        match s.inputQueue with
        | [] => .next { s with sleeps := s.sleeps + 1 }
        | none :: rest =>
            .doneExit { s with
                          inputQueue := rest,
                          outputQueue := s.outputQueue ++ [(none, none)] }
        | some a :: rest =>
            stepTail f { s with
                           inputQueue := rest,
                           heldArg := some a,
                           preCycles := s.preCycles ++ [a] }
      else
        stepTail f s

/-- Result of running the loop for a bounded number of iterations:
either the loop is still going (`outOfFuel`), or it exited by one of
its two `break` statements, or a worker crash. -/
inductive RunOutcome where
  | outOfFuel (s : ProcState)
  | stopped (s : ProcState)
  | finished (s : ProcState)
  | crashed (s : ProcState)


/-- The state carried by a `RunOutcome`. -/
def RunOutcome.state : RunOutcome → ProcState
  | .outOfFuel s => s
  | .stopped s => s
  | .finished s => s
  | .crashed s => s

/-- `True` exactly when the loop exited via the sentinel branch. -/
def RunOutcome.isFinished : RunOutcome → Bool
  | .finished _ => true
  | _ => false

/-- Run the `app_processor` main loop for at most `fuel` iterations. -/
def run (f : Nat → Nat) : Nat → ProcState → RunOutcome
  | 0, s => .outOfFuel s
  | fuel + 1, s =>
      match step f s with
      | .next s' => run f fuel s'
      | .stopExit s' => .stopped s'
      | .doneExit s' => .finished s'
      | .crash s' => .crashed s'

/-- The worker state at entry of the main loop (lines 82-87):
`_app_carryon = True`, `_arg` undefined, no Application hook called
yet, with a given input-queue content and carry-on oracle. -/
def initState (inq : List (Option Nat)) (oracle : Nat → Bool) : ProcState :=
  { inputQueue := inq
    outputQueue := []
    stopQueue := []
    abortedQueue := []
    carryon := true
    heldArg := none
    oracle := oracle
    ncalls := 0
    sleeps := 0
    preCycles := []
    funcCalls := [] }

example :
    (run (fun x => x + 1) 4
      (initState [some 3, some 7, none] (fun _ => true))).state.outputQueue
      = [(some 3, some 4), (some 7, some 8), (none, none)] := by
  decide

example :
    (run (fun x => x + 1) 4
      (initState [some 3, some 7, none] (fun _ => true))).isFinished = true := by
  decide

/-- Main run lemma: from any loop state with an empty stop queue,
`_app_carryon` true and an always-true carry-on oracle, the loop
consumes one task per iteration, pushes its envelope, and exits on the
sentinel, having called `multiprocessing_pre_cycle` and
`multiprocessing_func` once per task in order. -/
theorem run_allTrue (f : Nat → Nat) (tasks : List Nat) (s : ProcState)
    (hstop : s.stopQueue = []) (hc : s.carryon = true)
    (hor : ∀ n, s.oracle n = true)
    (hin : s.inputQueue = tasks.map some ++ [none]) :
    ∃ s', run f (tasks.length + 1) s = .finished s' ∧
      s'.outputQueue =
        s.outputQueue ++ tasks.map (fun t => (some t, some (f t))) ++ [(none, none)] ∧
      s'.inputQueue = [] ∧
      s'.preCycles = s.preCycles ++ tasks ∧
      s'.funcCalls = s.funcCalls ++ tasks := by
  induction tasks generalizing s with
  | nil =>
      refine ⟨{ s with inputQueue := [],
                       outputQueue := s.outputQueue ++ [(none, none)] },
        ?_, ?_, ?_, ?_, ?_⟩ <;>
        simp [run, step, hstop, hc, hin]
  | cons t ts ih =>
      have hstep : step f s = .next
          { s with inputQueue := ts.map some ++ [none],
                   heldArg := some t,
                   preCycles := s.preCycles ++ [t],
                   ncalls := s.ncalls + 1,
                   carryon := true,
                   outputQueue := s.outputQueue ++ [(some t, some (f t))],
                   funcCalls := s.funcCalls ++ [t] } := by
        simp [step, stepTail, hstop, hc, hin, hor]
      obtain ⟨s', h1, h2, h3, h4, h5⟩ := ih
        { s with inputQueue := ts.map some ++ [none],
                 heldArg := some t,
                 preCycles := s.preCycles ++ [t],
                 ncalls := s.ncalls + 1,
                 carryon := true,
                 outputQueue := s.outputQueue ++ [(some t, some (f t))],
                 funcCalls := s.funcCalls ++ [t] }
        hstop rfl hor rfl
      refine ⟨s', ?_, ?_, h3, ?_, ?_⟩
      · show run f (ts.length + 1 + 1) s = .finished s'
        rw [run, hstep]
        exact h1
      · simp only [h2]
        simp
      · simp only [h4]
        simp
      · simp only [h5]
        simp

/-- C1: for a finite task sequence `[t0..tK-1]` followed by the `None`
sentinel on the input queue, a single worker whose
`multiprocessing_carryon()` always returns `True` pushes exactly `K`
result envelopes — the pair `(t, multiprocessing_func t)` once for each
submitted task, each task id appearing exactly once when the submitted
ids are distinct — plus the final `(None, None)` end marker, and then
leaves the main loop. -/
theorem app_processor_complete_run (f : Nat → Nat) (tasks : List Nat) :
    ∃ s', run f (tasks.length + 1)
        (initState (tasks.map some ++ [none]) (fun _ => true)) = .finished s' ∧
      s'.outputQueue = tasks.map (fun t => (some t, some (f t))) ++ [(none, none)] ∧
      (s'.outputQueue.filter (fun e => e.1 ≠ none)).length = tasks.length ∧
      (tasks.Nodup → (s'.outputQueue.map Prod.fst).Nodup) := by
  obtain ⟨s', h1, h2, h3, h4, h5⟩ :=
    run_allTrue f tasks (initState (tasks.map some ++ [none]) (fun _ => true))
      rfl rfl (fun _ => rfl) rfl
  simp only [initState] at h2
  refine ⟨s', h1, by simpa using h2, ?_, ?_⟩
  · simp only [h2]
    rw [List.filter_append]
    simp [List.filter_map, Function.comp_def]
  · intro hnodup
    have hfst : s'.outputQueue.map Prod.fst = tasks.map some ++ [none] := by
      simp only [h2]
      simp [Function.comp_def]
    rw [hfst, List.nodup_append]
    refine ⟨hnodup.map (Option.some_injective _), by simp, ?_⟩
    intro x hx
    simp only [List.mem_map] at hx
    obtain ⟨t, _, rfl⟩ := hx
    simp

/-- Witness for C1: tasks `[0, 1, 2]` with the identity computation. -/
theorem app_processor_complete_run_witness :
    ∃ s', run (fun x => x) ([0, 1, 2].length + 1)
        (initState ([0, 1, 2].map some ++ [none]) (fun _ => true)) = .finished s' ∧
      s'.outputQueue = [0, 1, 2].map (fun t => (some t, some t)) ++ [(none, none)] ∧
      (s'.outputQueue.filter (fun e => e.1 ≠ none)).length = [0, 1, 2].length ∧
      (([0, 1, 2] : List Nat).Nodup → (s'.outputQueue.map Prod.fst).Nodup) :=
  app_processor_complete_run (fun x => x) [0, 1, 2]

/-- Deferred-task run lemma: from a state holding task `a` with
`_app_carryon` false and an empty stop queue, if the next `k` calls to
`multiprocessing_carryon()` return `False` and the following one
returns `True`, then after `k + 1` iterations the loop has fetched
nothing new from the input queue, kept the held task, and pushed
exactly the envelope `(a, multiprocessing_func a)`. -/
theorem run_deferred (f : Nat → Nat) (k a : Nat) (s : ProcState)
    (hstop : s.stopQueue = []) (hc : s.carryon = false)
    (ha : s.heldArg = some a)
    (hfalse : ∀ j, j < k → s.oracle (s.ncalls + j) = false)
    (htrue : s.oracle (s.ncalls + k) = true) :
    ∃ s', run f (k + 1) s = .outOfFuel s' ∧
      s'.inputQueue = s.inputQueue ∧
      s'.preCycles = s.preCycles ∧
      s'.heldArg = some a ∧
      s'.outputQueue = s.outputQueue ++ [(some a, some (f a))] ∧
      s'.funcCalls = s.funcCalls ++ [a] ∧
      s'.carryon = true := by
  induction k generalizing s with
  | zero =>
      have h0 : s.oracle s.ncalls = true := by simpa using htrue
      refine ⟨{ s with ncalls := s.ncalls + 1, carryon := true,
                       outputQueue := s.outputQueue ++ [(some a, some (f a))],
                       funcCalls := s.funcCalls ++ [a] },
        ?_, rfl, rfl, ha, rfl, rfl, rfl⟩
      simp [run, step, stepTail, hstop, hc, ha, h0]
  | succ k ih =>
      have h0 : s.oracle s.ncalls = false := by
        simpa using hfalse 0 (Nat.succ_pos k)
      have hstep : step f s = .next { s with ncalls := s.ncalls + 1, carryon := false } := by
        simp [step, stepTail, hstop, hc, h0]
      obtain ⟨s', h1, h2, h3, h4, h5, h6, h7⟩ := ih
        { s with ncalls := s.ncalls + 1, carryon := false }
        hstop rfl ha
        (fun j hj => by
          have := hfalse (j + 1) (Nat.succ_lt_succ hj)
          simpa [Nat.add_assoc, Nat.add_comm 1 j] using this)
        (by
          have := htrue
          simpa [Nat.add_assoc, Nat.add_comm 1 k] using this)
      refine ⟨s', ?_, h2, h3, h4, h5, h6, h7⟩
      show run f (k + 1 + 1) s = .outOfFuel s'
      rw [run, hstep]
      exact h1

/-- C2: once a task id has been obtained, a `False`
`multiprocessing_carryon()` makes later iterations skip the
input-queue fetch without discarding the held task, and on the first
later iteration with a `True` carry-on (and no stop token) the worker
computes `multiprocessing_func` on the same held task and pushes its
envelope — the final state shows the input queue and fetched-task list
untouched and exactly one new envelope, for the held id. -/
theorem app_processor_deferred_task (f : Nat → Nat) (k a : Nat) (s : ProcState)
    (hstop : s.stopQueue = []) (hc : s.carryon = false)
    (ha : s.heldArg = some a)
    (hfalse : ∀ j, j < k → s.oracle (s.ncalls + j) = false)
    (htrue : s.oracle (s.ncalls + k) = true) :
    ∃ s', run f (k + 1) s = .outOfFuel s' ∧
      s'.inputQueue = s.inputQueue ∧
      s'.preCycles = s.preCycles ∧
      s'.heldArg = some a ∧
      s'.outputQueue = s.outputQueue ++ [(some a, some (f a))] ∧
      s'.funcCalls = s.funcCalls ++ [a] := by
  obtain ⟨s', h1, h2, h3, h4, h5, h6, _⟩ :=
    run_deferred f k a s hstop hc ha hfalse htrue
  exact ⟨s', h1, h2, h3, h4, h5, h6⟩

/-- Witness for C2: task 5 held, carry-on call 1 returns `False` and
call 2 returns `True`. -/
theorem app_processor_deferred_task_witness :
    ∃ s', run (fun x => x + 10) (1 + 1)
        { initState [] (fun n => decide (n = 2)) with
            carryon := false, heldArg := some 5, ncalls := 1,
            preCycles := [5] } = .outOfFuel s' ∧
      s'.inputQueue = [] ∧
      s'.preCycles = [5] ∧
      s'.heldArg = some 5 ∧
      s'.outputQueue = [] ++ [(some 5, some 15)] ∧
      s'.funcCalls = [] ++ [5] := by
  have h := app_processor_deferred_task (fun x => x + 10) 1 5
    { initState [] (fun n => decide (n = 2)) with
        carryon := false, heldArg := some 5, ncalls := 1,
        preCycles := [5] }
    rfl rfl rfl
    (fun j hj => by
      obtain rfl : j = 0 := by omega
      rfl)
    rfl
  simpa [initState] using h

/-- C4: on any iteration with a token in the stop queue — regardless of
the carry-on flag, held task or input-queue content — the worker pushes
an acknowledgment onto the aborted queue and exits the loop at once,
with no task fetched, no `multiprocessing_func` call and no result
envelope pushed, in this iteration or ever after (the run outcome is
the terminal `stopped`). -/
theorem app_processor_stop_exit (f : Nat → Nat) (fuel : Nat) (s : ProcState)
    (z : Nat) (rest : List Nat) (hstop : s.stopQueue = z :: rest) :
    ∃ s', run f (fuel + 1) s = .stopped s' ∧
      s'.abortedQueue = s.abortedQueue ++ [1] ∧
      s'.stopQueue = rest ∧
      s'.outputQueue = s.outputQueue ∧
      s'.inputQueue = s.inputQueue ∧
      s'.preCycles = s.preCycles ∧
      s'.funcCalls = s.funcCalls := by
  refine ⟨{ s with stopQueue := rest,
                   abortedQueue := s.abortedQueue ++ [1] },
    ?_, rfl, rfl, rfl, rfl, rfl, rfl⟩
  simp [run, step, hstop]

/-- Witness for C4: a stop token present while task 3 is next on the
input queue. -/
theorem app_processor_stop_exit_witness :
    ∃ s', run (fun x => x) (7 + 1)
        { initState [some 3] (fun _ => true) with stopQueue := [1] } = .stopped s' ∧
      s'.abortedQueue = [] ++ [1] ∧
      s'.stopQueue = [] ∧
      s'.outputQueue = [] ∧
      s'.inputQueue = [some 3] ∧
      s'.preCycles = [] ∧
      s'.funcCalls = [] := by
  have h := app_processor_stop_exit (fun x => x) 7
    { initState [some 3] (fun _ => true) with stopQueue := [1] } 1 [] rfl
  simpa [initState] using h

/-- C10: the 5 ms backoff `time.sleep(0.005)` runs in an iteration
exactly when the stop queue is empty, `_app_carryon` is true and the
input queue is empty; in particular an iteration entered with a
deferred task (`_app_carryon` false) and no stop token performs no
sleep, so the carry-on wait is an unthrottled busy loop. -/
theorem app_processor_sleep_accounting (f : Nat → Nat) (s : ProcState) :
    (step f s).state.sleeps =
      s.sleeps + (if s.stopQueue = [] ∧ s.carryon = true ∧ s.inputQueue = []
                  then 1 else 0) := by
  cases hq : s.stopQueue with
  | cons z rest => simp [step, StepResult.state, hq]
  | nil =>
      cases hc : s.carryon with
      | false =>
          cases horc : s.oracle s.ncalls <;>
            cases ha : s.heldArg <;>
              simp [step, stepTail, StepResult.state, hq, hc, horc, ha]
      | true =>
          cases hin : s.inputQueue with
          | nil => simp [step, StepResult.state, hq, hc, hin]
          | cons x rest =>
              cases x <;>
                cases horc : s.oracle s.ncalls <;>
                  simp [step, stepTail, StepResult.state, hq, hc, hin, horc]

/-- `True` exactly when the loop exited via the stop-token branch. -/
def RunOutcome.isStopped : RunOutcome → Bool
  | .stopped _ => true
  | _ => false

/-- The task ids answered so far: the first components of the pushed
result envelopes, with the `(None, None)` end marker filtered out. -/
def answered (s : ProcState) : List Nat :=
  s.outputQueue.filterMap Prod.fst

/-- The task fetched from the input queue but not yet answered: the
held `_arg` while `_app_carryon` is false, nothing otherwise. -/
def pendingTask (s : ProcState) : List Nat :=
  if s.carryon then [] else s.heldArg.toList

/-- One-step accounting: every iteration preserves the equation
"answered tasks, then the possibly deferred task = all fetched tasks". -/
theorem step_accounting (f : Nat → Nat) (s : ProcState)
    (h : answered s ++ pendingTask s = s.preCycles) :
    answered (step f s).state ++ pendingTask (step f s).state
      = (step f s).state.preCycles := by
  cases hq : s.stopQueue with
  | cons z rest =>
      simpa [step, StepResult.state, answered, pendingTask, hq] using h
  | nil =>
      cases hc : s.carryon with
      | false =>
          simp only [answered, pendingTask, hc, if_neg Bool.false_ne_true] at h
          cases horc : s.oracle s.ncalls <;>
            cases ha : s.heldArg <;>
              simpa [step, stepTail, StepResult.state, answered, pendingTask,
                     hq, hc, horc, ha, List.filterMap_append] using h
      | true =>
          simp only [answered, pendingTask, hc, if_pos rfl, List.append_nil] at h
          cases hin : s.inputQueue with
          | nil =>
              simpa [step, StepResult.state, answered, pendingTask, hq, hc, hin]
                using h
          | cons x rest =>
              cases x <;>
                cases horc : s.oracle s.ncalls <;>
                  simpa [step, stepTail, StepResult.state, answered, pendingTask,
                         hq, hc, hin, horc, List.filterMap_append] using h

/-- Run-level accounting: the equation of `step_accounting` holds at
the state reached after any number of iterations. -/
theorem run_accounting (f : Nat → Nat) (fuel : Nat) (s : ProcState)
    (h : answered s ++ pendingTask s = s.preCycles) :
    answered (run f fuel s).state ++ pendingTask (run f fuel s).state
      = (run f fuel s).state.preCycles := by
  induction fuel generalizing s with
  | zero => simpa [run, RunOutcome.state] using h
  | succ fuel ih =>
      have hstep := step_accounting f s h
      rw [run]
      cases hres : step f s with
      | next s' =>
          exact ih s' (by simpa [hres, StepResult.state] using hstep)
      | stopExit s' =>
          simpa [hres, StepResult.state, RunOutcome.state] using hstep
      | doneExit s' =>
          simpa [hres, StepResult.state, RunOutcome.state] using hstep
      | crash s' =>
          simpa [hres, StepResult.state, RunOutcome.state] using hstep

/-- The sentinel `break` only happens in the `_app_carryon` branch, so
the exit state of a sentinel-finished loop has the flag still true. -/
theorem step_doneExit_carryon (f : Nat → Nat) (s s' : ProcState)
    (h : step f s = .doneExit s') : s'.carryon = true := by
  cases hq : s.stopQueue with
  | cons z rest => simp [step, hq] at h
  | nil =>
      cases hc : s.carryon with
      | false =>
          rw [step] at h
          simp only [hq, hc] at h
          cases horc : s.oracle s.ncalls <;>
            cases ha : s.heldArg <;>
              simp [stepTail, horc, ha] at h
      | true =>
          rw [step] at h
          simp only [hq, hc] at h
          cases hin : s.inputQueue with
          | nil => simp [hin] at h
          | cons x rest =>
              cases x with
              | none =>
                  simp only [hin] at h
                  cases h
                  rfl
              | some a =>
                  simp only [hin, stepTail] at h
                  cases horc : s.oracle s.ncalls <;>
                    simp [horc] at h

/-- A run that finished via the sentinel leaves `_app_carryon` true. -/
theorem run_finished_carryon (f : Nat → Nat) (fuel : Nat) (s s' : ProcState)
    (h : run f fuel s = .finished s') : s'.carryon = true := by
  induction fuel generalizing s with
  | zero => simp [run] at h
  | succ fuel ih =>
      rw [run] at h
      cases hres : step f s with
      | next s1 =>
          rw [hres] at h
          exact ih s1 h
      | stopExit s1 => rw [hres] at h; cases h
      | doneExit s1 =>
          rw [hres] at h
          have h2 : s1 = s' := by injection h
          subst h2
          exact step_doneExit_carryon f s _ hres
      | crash s1 => rw [hres] at h; cases h

/-- C5 counterexample: with the single task 5 on the input queue and a
carry-on oracle that always answers `False`, the first iteration takes
task 5 from the queue and defers it; when a stop token then arrives,
the loop exits via the stop branch with an empty output queue — the
fetched task 5 produced no result envelope and no fatal error, so a
dispatched task id is silently dropped on this exit path. -/
theorem app_processor_drop_counterexample :
    (step (fun x => x) (initState [some 5] (fun _ => false))).state.preCycles = [5] ∧
    (step (fun x => x) (initState [some 5] (fun _ => false))).state.inputQueue = [] ∧
    (run (fun x => x) 9
      { (step (fun x => x) (initState [some 5] (fun _ => false))).state with
          stopQueue := [1] }).isStopped = true ∧
    (run (fun x => x) 9
      { (step (fun x => x) (initState [some 5] (fun _ => false))).state with
          stopQueue := [1] }).state.outputQueue = [] := by
  decide

/-- C5 amended: every task id taken from the input queue is accounted
for — it is answered by exactly the envelopes pushed so far or is the
single currently deferred task.  When the loop exits via the sentinel,
the answered ids are exactly the fetched ids (no task dropped); when
it exits via the stop token, at most one fetched task (the deferred
one) is left without an envelope. -/
theorem app_processor_no_silent_drop (f : Nat → Nat) (fuel : Nat) (s : ProcState)
    (h : answered s ++ pendingTask s = s.preCycles) :
    answered (run f fuel s).state ++ pendingTask (run f fuel s).state
        = (run f fuel s).state.preCycles ∧
    (∀ s', run f fuel s = .finished s' → answered s' = s'.preCycles) ∧
    (∀ s', run f fuel s = .stopped s' →
        (s'.preCycles).length ≤ (answered s').length + 1) := by
  refine ⟨run_accounting f fuel s h, ?_, ?_⟩
  · intro s' hs'
    have hacc := run_accounting f fuel s h
    rw [hs'] at hacc
    have hcarry := run_finished_carryon f fuel s s' hs'
    simp only [RunOutcome.state] at hacc
    simpa [pendingTask, hcarry] using hacc
  · intro s' hs'
    have hacc := run_accounting f fuel s h
    rw [hs'] at hacc
    simp only [RunOutcome.state] at hacc
    have hlen : (pendingTask s').length ≤ 1 := by
      unfold pendingTask
      cases hc : s'.carryon
      · cases s'.heldArg <;> simp
      · simp
    have := congrArg List.length hacc
    simp only [List.length_append] at this
    omega

/-- Witness for C5 (amended): a two-task run with always-true carry-on
starting from the loop entry state, where the accounting hypothesis
holds trivially. -/
theorem app_processor_no_silent_drop_witness :
    (answered (run (fun x => x) 3 (initState [some 4, some 6, none] (fun _ => true))).state ++
        pendingTask (run (fun x => x) 3 (initState [some 4, some 6, none] (fun _ => true))).state
        = (run (fun x => x) 3 (initState [some 4, some 6, none] (fun _ => true))).state.preCycles) ∧
    (∀ s', run (fun x => x) 3 (initState [some 4, some 6, none] (fun _ => true)) = .finished s' →
        answered s' = s'.preCycles) ∧
    (∀ s', run (fun x => x) 3 (initState [some 4, some 6, none] (fun _ => true)) = .stopped s' →
        (s'.preCycles).length ≤ (answered s').length + 1) :=
  app_processor_no_silent_drop (fun x => x) 3
    (initState [some 4, some 6, none] (fun _ => true)) (by decide)

/-- Line 82 of `app_processor_.py`:
`_wait_for_output = kwargs.get("wait_for_output_queue", True)`. -/
def wait_for_output (kw : Option Bool) : Bool :=
  kw.getD true

/-- Line 117 of `app_processor_.py`: the guard of the post-loop drain
loop `while _wait_for_output and not output_queue.empty()`; the worker
returns as soon as this guard is false. -/
def drain_loop_continues (wait : Bool) (outq : List (Option Nat × Option Nat)) : Bool :=
  wait && !outq.isEmpty

/-- C8: after the main loop exits, the worker keeps waiting exactly
while the output queue is nonempty — unless `wait_for_output_queue`
was passed as `False`, in which case it returns immediately; when the
keyword is absent the default is to wait. -/
theorem app_processor_drain_guard (kw : Option Bool) (outq : List (Option Nat × Option Nat)) :
    wait_for_output none = true ∧
    drain_loop_continues (wait_for_output (some false)) outq = false ∧
    (drain_loop_continues (wait_for_output kw) outq = false ↔
      kw = some false ∨ outq = []) := by
  refine ⟨rfl, rfl, ?_⟩
  rcases kw with _ | b
  · cases outq <;> simp [wait_for_output, drain_loop_continues]
  · cases b <;> cases outq <;> simp [wait_for_output, drain_loop_continues]

/-- The calls `AppRunner.__check_progress` makes on the controller. -/
inductive RunnerCall where
  | suspend
  | stop
deriving DecidableEq

/-- `AppRunner.__check_progress` (app_runner.py, lines 157-170): the
slot receiving each emitted progress value; when `progress >= 1` it
calls `self.suspend()` and then `self.stop()`, otherwise nothing. -/
def check_progress (progress : ℚ) : List RunnerCall :=
  if progress ≥ 1 then [.suspend, .stop] else []

/-- C9: whenever the emitted progress value is at least 1 the
controller suspends and then stops itself, and for every progress
value strictly below 1 it does neither. -/
theorem app_runner_check_progress_spec (p : ℚ) :
    (1 ≤ p → check_progress p = [.suspend, .stop]) ∧
    (p < 1 → check_progress p = []) := by
  constructor
  · intro h
    simp [check_progress, h]
  · intro h
    simp [check_progress, not_le.mpr h]

/-- Witness for C9: progress 1 triggers suspend-then-stop, progress
1/2 triggers nothing. -/
theorem app_runner_check_progress_spec_witness :
    check_progress 1 = [.suspend, .stop] ∧ check_progress (1 / 2) = [] :=
  ⟨(app_runner_check_progress_spec 1).1 le_rfl,
   (app_runner_check_progress_spec (1 / 2)).2 (by norm_num)⟩

/-- Model of the `AppRunner` controller (app_runner.py): the running
flag `_flag_running` inherited from `WorkerController`, the bound
Application `__app` (opaque, of type `α`), the Application's method
names (for `__check_app_method_name`) and whether the Application is a
`BaseApp` instance (for `__check_app_is_set`). -/
structure AppRunnerModel (α : Type) where
  flag_running : Bool
  app : α
  methodNames : List String
  app_is_set : Bool

/-- The exceptions raised by the `AppRunner` control methods:
`runtimeError` — "Cannot call Application methods while the
Application is running. Please call .stop() on the AppRunner first.";
`keyError` — "The App does not have a method with name ...";
`typeError` — "Application is not an instance of BaseApp." -/
inductive RunnerError where
  | runtimeError
  | keyError
  | typeError
deriving DecidableEq

/-- `AppRunner.__check_is_running` (lines 172-177): raise the
RuntimeError when `_flag_running` is set. -/
def check_is_running {α : Type} (r : AppRunnerModel α) : Except RunnerError Unit :=
  if r.flag_running then .error .runtimeError else .ok ()

/-- `AppRunner.__check_app_method_name` (lines 179-183). -/
def check_app_method_name {α : Type} (r : AppRunnerModel α) (m : String) :
    Except RunnerError Unit :=
  if m ∈ r.methodNames then .ok () else .error .keyError

/-- `AppRunner.__check_app_is_set` (lines 185-192). -/
def check_app_is_set {α : Type} (r : AppRunnerModel α) : Except RunnerError Unit :=
  if r.app_is_set then .ok () else .error .typeError

/-- `AppRunner.call_app_method` (lines 87-114): check the pool is not
running, check the method exists, then run the method — modelled as a
function taking the Application to its updated state plus a return
value — on the bound Application. -/
def call_app_method {α β : Type} (r : AppRunnerModel α) (m : String)
    (method : α → α × β) : Except RunnerError (AppRunnerModel α × β) :=
  match check_is_running r with
  | .error e => .error e
  | .ok _ =>
      match check_app_method_name r m with
      | .error e => .error e
      | .ok _ => .ok ({ r with app := (method r.app).1 }, (method r.app).2)

/-- `AppRunner.set_app_param` (lines 116-128): check the Application
is set, then call `set_param_value` on it — modelled as an update
function on the Application.  The source performs no running-state
check on this path. -/
def set_app_param {α : Type} (r : AppRunnerModel α) (setter : α → α) :
    Except RunnerError (AppRunnerModel α) :=
  match check_app_is_set r with
  | .error e => .error e
  | .ok _ => .ok { r with app := setter r.app }

/-- C3 counterexample: with the pool running (`_flag_running` true),
`set_app_param` does not raise the "not permitted while running"
RuntimeError — it succeeds and mutates the bound Application (here
from 0 to 1), so not every Application-mutating AppRunner method is
guarded by the running check. -/
theorem set_app_param_while_running_counterexample :
    set_app_param
        { flag_running := true, app := (0 : Int),
          methodNames := ["run"], app_is_set := true }
        (fun _ => 1)
      = .ok { flag_running := true, app := (1 : Int),
              methodNames := ["run"], app_is_set := true } := by
  rfl

/-- C3 amended: `call_app_method` invoked while the pool is running
fails with the RuntimeError and leaves the Application unchanged (no
updated runner is produced), and succeeds once the pool is stopped;
`set_app_param`, by contrast, performs no running-state check: given a
bound BaseApp it succeeds and mutates the Application regardless of
the pool state. -/
theorem app_runner_mutation_guard {α β : Type} (r : AppRunnerModel α)
    (m : String) (method : α → α × β) (setter : α → α) :
    (r.flag_running = true → call_app_method r m method = .error .runtimeError) ∧
    (r.flag_running = false → m ∈ r.methodNames →
      call_app_method r m method
        = .ok ({ r with app := (method r.app).1 }, (method r.app).2)) ∧
    (r.app_is_set = true → set_app_param r setter = .ok { r with app := setter r.app }) := by
  refine ⟨?_, ?_, ?_⟩
  · intro h
    simp [call_app_method, check_is_running, h]
  · intro h hm
    simp [call_app_method, check_is_running, check_app_method_name, h, hm]
  · intro h
    simp [set_app_param, check_app_is_set, h]

/-- Witness for C3 (amended): a running pool rejects
`call_app_method`, a stopped pool accepts it, and `set_app_param`
succeeds even on the running pool. -/
theorem app_runner_mutation_guard_witness :
    (call_app_method
        { flag_running := true, app := (0 : Int),
          methodNames := ["run"], app_is_set := true }
        "run" (fun a => (a + 5, a)) = .error .runtimeError) ∧
    (call_app_method
        { flag_running := false, app := (0 : Int),
          methodNames := ["run"], app_is_set := true }
        "run" (fun a => (a + 5, a))
      = .ok ({ flag_running := false, app := (5 : Int),
               methodNames := ["run"], app_is_set := true }, (0 : Int))) ∧
    (set_app_param
        { flag_running := true, app := (0 : Int),
          methodNames := ["run"], app_is_set := true }
        (fun a => a + 1)
      = .ok { flag_running := true, app := (1 : Int),
              methodNames := ["run"], app_is_set := true }) := by
  refine ⟨?_, ?_, ?_⟩
  · exact (app_runner_mutation_guard
      { flag_running := true, app := (0 : Int),
        methodNames := ["run"], app_is_set := true }
      "run" (fun a => (a + 5, a)) (fun a => a + 1)).1 rfl
  · have h := (app_runner_mutation_guard
      { flag_running := false, app := (0 : Int),
        methodNames := ["run"], app_is_set := true }
      "run" (fun a => (a + 5, a)) (fun a => a + 1)).2.1 rfl (by simp)
    simpa using h
  · exact (app_runner_mutation_guard
      { flag_running := true, app := (0 : Int),
        methodNames := ["run"], app_is_set := true }
      "run" (fun a => (a + 5, a)) (fun a => a + 1)).2.2 rfl

/-- The mutable storage of one live Application instance: its
Parameter values (`app.params`), its `_config` dictionary and the
`slave_mode` flag passed at construction. -/
structure AppObj where
  params : List (String × Int)
  config : List (String × Int)
  slave_mode : Bool
deriving DecidableEq

/-- A heap of live Application instances; a reference (index) stands
for object identity.  Passing data across the process boundary via
`multiprocessing` pickles it, so only plain values — never references
— cross; a worker's instance is a fresh allocation in this heap. -/
abbrev AppStore := List AppObj

/-- Dereference a live object. -/
def storeGet (st : AppStore) (r : Nat) : Option AppObj :=
  st.get? r

/-- Mutate a live object in place. -/
def storeSet (st : AppStore) (r : Nat) (a : AppObj) : AppStore :=
  st.set r a

/-- Allocate a fresh object, returning the new heap and its reference. -/
def alloc (st : AppStore) (a : AppObj) : AppStore × Nat :=
  (st ++ [a], st.length)

/-- `AppRunner.__get_app_arguments` (app_runner.py, lines 194-197):
the tuple `(self.__app.__class__, self.__app.params.get_copy(),
self.__app.get_config())` — the Application's class with copies of its
parameter values and its config payload, extracted as plain values;
the live instance itself is not part of the tuple. -/
def get_app_arguments (st : AppStore) (r : Nat) :
    Option (List (String × Int) × List (String × Int)) :=
  (storeGet st r).map (fun a => (a.params, a.config))

/-- Worker-side reconstruction (app_processor_.py, lines 85-86):
`_app = app(app_params, slave_mode=True)` followed by
`_app._config = app_config` — a fresh instance built in the worker
from the transmitted values, in slave mode. -/
def worker_build_app (st : AppStore) (args : List (String × Int) × List (String × Int)) :
    AppStore × Nat :=
  alloc st { params := args.1, config := args.2, slave_mode := true }

/-- C7: the live Application is never handed to a worker — the worker
receives only the copied parameter values and config and allocates its
own instance in slave mode at a reference distinct from the
controller's, so mutating the worker's instance leaves the
controller's instance untouched. -/
theorem worker_app_isolated (st : AppStore) (r : Nat)
    (args : List (String × Int) × List (String × Int))
    (hr : r < st.length) (hargs : get_app_arguments st r = some args) :
    (worker_build_app st args).2 ≠ r ∧
    (∀ a, storeGet st r = some a →
      storeGet (worker_build_app st args).1 (worker_build_app st args).2
        = some { params := a.params, config := a.config, slave_mode := true }) ∧
    (∀ g : AppObj → AppObj,
      storeGet
          (storeSet (worker_build_app st args).1 (worker_build_app st args).2
            (g { params := args.1, config := args.2, slave_mode := true }))
          r
        = storeGet st r) := by
  refine ⟨?_, ?_, ?_⟩
  · simp only [worker_build_app, alloc]
    omega
  · intro a ha
    simp only [get_app_arguments, ha, Option.map_some'] at hargs
    obtain rfl : (a.params, a.config) = args := by
      injection hargs
    simp [worker_build_app, alloc, storeGet]
  · intro g
    simp only [worker_build_app, alloc, storeGet, storeSet]
    rw [List.get?_eq_getElem?, List.get?_eq_getElem?, List.getElem?_set_ne (by omega)]
    rw [List.getElem?_append]
    simp [hr]

/-- Witness for C7: a controller app with one parameter; the worker's
mutation of its own instance does not reach the controller's. -/
theorem worker_app_isolated_witness :
    ((worker_build_app
        [{ params := [("n", 3)], config := [("c", 0)], slave_mode := false }]
        ([("n", 3)], [("c", 0)])).2 ≠ 0) ∧
    (∀ a, storeGet [{ params := [("n", 3)], config := [("c", 0)], slave_mode := false }] 0
        = some a →
      storeGet
          (worker_build_app
            [{ params := [("n", 3)], config := [("c", 0)], slave_mode := false }]
            ([("n", 3)], [("c", 0)])).1
          (worker_build_app
            [{ params := [("n", 3)], config := [("c", 0)], slave_mode := false }]
            ([("n", 3)], [("c", 0)])).2
        = some { params := a.params, config := a.config, slave_mode := true }) ∧
    (∀ g : AppObj → AppObj,
      storeGet
          (storeSet
            (worker_build_app
              [{ params := [("n", 3)], config := [("c", 0)], slave_mode := false }]
              ([("n", 3)], [("c", 0)])).1
            (worker_build_app
              [{ params := [("n", 3)], config := [("c", 0)], slave_mode := false }]
              ([("n", 3)], [("c", 0)])).2
            (g { params := [("n", 3)], config := [("c", 0)], slave_mode := true }))
          0
        = storeGet
            [{ params := [("n", 3)], config := [("c", 0)], slave_mode := false }] 0) :=
  worker_app_isolated
    [{ params := [("n", 3)], config := [("c", 0)], slave_mode := false }]
    0 ([("n", 3)], [("c", 0)]) (by decide) (by decide)

/-- Modelled from the spec: the shared result buffer of
`ExecuteWorkflowApp` (the module itself is not part of the source
snapshot; only its unit tests are).  Per spec section 3, the buffer
has a fixed number of slots with one shared occupancy-flag array,
`0` = free/consumed and `1` = written-not-yet-consumed. -/
structure SharedBuffer where
  flags : List Nat
  slots : List (Option Nat)
deriving DecidableEq

/-- Modelled from the spec: index of the first free slot (flag 0). -/
def find_free_slot : List Nat → Option Nat
  | [] => none
  | fl :: rest =>
      if fl = 0 then some 0
      else (find_free_slot rest).map (· + 1)

/-- `find_free_slot` returns an in-range slot whose flag is 0. -/
theorem find_free_slot_spec (fl : List Nat) (i : Nat)
    (h : find_free_slot fl = some i) :
    fl[i]? = some 0 ∧ i < fl.length := by
  induction fl generalizing i with
  | nil => simp [find_free_slot] at h
  | cons x rest ih =>
      by_cases hx : x = 0
      · simp only [find_free_slot, if_pos hx] at h
        cases h
        subst hx
        exact ⟨List.getElem?_cons_zero, Nat.succ_pos _⟩
      · simp only [find_free_slot, if_neg hx] at h
        cases hres : find_free_slot rest with
        | none => simp [hres] at h
        | some j =>
            rw [hres] at h
            simp only [Option.map_some'] at h
            obtain rfl : j + 1 = i := by injection h
            obtain ⟨h1, h2⟩ := ih j hres
            refine ⟨?_, Nat.succ_lt_succ h2⟩
            rw [List.getElem?_cons_succ]
            exact h1

/-- Modelled from the spec: the master-side write performed inside the
Application's `multiprocessing_func` — store the frame's result in a
free slot, flip that slot's flag from 0 to 1 and return the slot
index; when no slot is free, no write takes place (the writer must
wait). -/
def buffer_write (b : SharedBuffer) (payload : Nat) :
    Option (SharedBuffer × Nat) :=
  match find_free_slot b.flags with
  | none => none
  | some i =>
      some ({ flags := b.flags.set i 1, slots := b.slots.set i (some payload) }, i)

/-- Modelled from the spec: `multiprocessing_store_results` — the
consumer on the master resets the slot's flag to 0; an Application in
slave mode leaves the buffer untouched, because only the master
consumes. -/
def multiprocessing_store_results (slave_mode : Bool) (b : SharedBuffer)
    (pos : Nat) : SharedBuffer :=
  if slave_mode then b else { b with flags := b.flags.set pos 0 }

/-- C6: the occupancy-flag protocol of the shared buffer — a write
targets only a slot whose flag is 0, flips exactly that flag to 1 and
touches no other slot (so an occupied slot is never overwritten until
it is consumed); the master's `multiprocessing_store_results` resets
the slot's flag to 0, while a slave-mode Application's
`multiprocessing_store_results` leaves the flag at 1. -/
theorem shared_buffer_flag_protocol (b : SharedBuffer) (payload pos : Nat) :
    (∀ b' i, buffer_write b payload = some (b', i) →
      b.flags[i]? = some 0 ∧
      b'.flags[i]? = some 1 ∧
      (∀ j, j ≠ i → b'.flags[j]? = b.flags[j]? ∧
        b'.slots[j]? = b.slots[j]?)) ∧
    (pos < b.flags.length →
      (multiprocessing_store_results false b pos).flags[pos]? = some 0) ∧
    multiprocessing_store_results true b pos = b := by
  refine ⟨?_, ?_, rfl⟩
  · intro b' i h
    cases hfs : find_free_slot b.flags with
    | none => simp [buffer_write, hfs] at h
    | some k =>
        simp only [buffer_write, hfs, Option.some_inj] at h
        injection h with hb hi
        subst hb
        subst hi
        obtain ⟨hflag, hlt⟩ := find_free_slot_spec b.flags k hfs
        refine ⟨hflag, ?_, ?_⟩
        · exact List.getElem?_set_eq_of_lt 1 hlt
        · intro j hj
          constructor
          · exact List.getElem?_set_ne (fun he => hj he.symm)
          · exact List.getElem?_set_ne (fun he => hj he.symm)
  · intro hlt
    simp only [multiprocessing_store_results, if_neg Bool.false_ne_true]
    exact List.getElem?_set_eq_of_lt 0 hlt

/-- Witness for C6: a two-slot buffer with slot 0 occupied; the write
lands in slot 1, whose flag was 0; the master consume frees slot 1 and
the slave consume does not touch the buffer. -/
theorem shared_buffer_flag_protocol_witness :
    ((⟨[1, 0], [some 9, none]⟩ : SharedBuffer).flags[1]? = some 0) ∧
    (1 < (⟨[1, 0], [some 9, none]⟩ : SharedBuffer).flags.length →
      (multiprocessing_store_results false ⟨[1, 0], [some 9, none]⟩ 1).flags[1]?
        = some 0) ∧
    multiprocessing_store_results true ⟨[1, 0], [some 9, none]⟩ 1
      = ⟨[1, 0], [some 9, none]⟩ := by
  have h := shared_buffer_flag_protocol ⟨[1, 0], [some 9, none]⟩ 7 1
  exact ⟨(h.1 ⟨[1, 1], [some 9, some 7]⟩ 1 (by decide)).1, h.2.1, h.2.2⟩
